import Mathlib

/-!
Verification of the static detection engine of `mega_js_scanner.py`:
the AST dangerous-call detector (`ast_find_dangerous_calls`, DEEP mode)
and the DOM taint correlator (DOM mode: `find_sources`, `find_sinks`,
the per-file correlation in `run_dom_mode`).
-/

namespace MegaJsScanner

/-- Shallow embedding of the esprima syntax-tree nodes that
`ast_find_dangerous_calls` discriminates on.  Each constructor records the
node's start line (the `loc.start.line` the Python reads).  Constructor
child order mirrors the attribute insertion order of the corresponding
esprima node class, which is the order `node.__dict__.items()` yields:
`member` holds `object` then `property` (plus the `computed` flag),
`call` holds `callee` then `arguments`, `assign` holds `left` then
`right`.  `ident` is an Identifier (the only node kind with a `.name`
attribute); `lit` is a Literal (no `.name`); `other` covers every other
node kind (Program, ExpressionStatement, ...) with its kind string and
its node-valued children in attribute order. -/
inductive Node : Type where
  | ident (line : Nat) (name : String)
  | lit (line : Nat)
  | member (line : Nat) (computed : Bool) (obj : Node) (prop : Node)
  | call (line : Nat) (callee : Node) (args : List Node)
  | assign (line : Nat) (left : Node) (right : Node)
  | other (line : Nat) (kind : String) (children : List Node)

/-- A finding produced by the detector: the Python appends the triple
`(node.type, name, line)` to its findings list. -/
structure Finding where
  kind : String
  name : String
  line : Nat
deriving DecidableEq

/-- The `DANGEROUS_SINKS` catalog, verbatim from the source. -/
def DANGEROUS_SINKS : List String :=
  ["eval", "setTimeout", "setInterval", "Function", "document.write",
   "document.writeln", "innerHTML", "outerHTML", "insertAdjacentHTML",
   "location.assign", "location.replace"]

/-- `getattr(node.callee, "name", None)`: only Identifier nodes carry a
`.name` attribute in esprima, so every other node shape yields `None`. -/
def calleeName : Node → Option String
  | .ident _ n => some n
  | _ => none

/-- `node.left.property.name` evaluated under the bare `try/except`:
it succeeds exactly when the left-hand side is a member expression whose
`property` is an Identifier (the only property shape with `.name`);
any attribute error is swallowed and yields nothing. -/
def leftPropName : Node → Option String
  | .member _ _ _ (.ident _ n) => some n
  | _ => none

/-- Start line of a node (`node.loc.start.line`). -/
def Node.line : Node → Nat
  | .ident l _ => l
  | .lit l => l
  | .member l _ _ _ => l
  | .call l _ _ => l
  | .assign l _ _ => l
  | .other l _ _ => l

/-- The finding, if any, that `visit_node` appends at one node before
recursing: a `CallExpression` whose callee name is in `DANGEROUS_SINKS`,
or an `AssignmentExpression` whose left property name is `innerHTML` or
`outerHTML`. -/
def nodeFinding : Node → Option Finding
  | .call l c _ =>
      match calleeName c with
      | some nm =>
          if nm ∈ DANGEROUS_SINKS then some ⟨"CallExpression", nm, l⟩ else none
      | none => none
  | .assign l lhs _ =>
      match leftPropName lhs with
      | some nm =>
          if nm ∈ ["innerHTML", "outerHTML"] then
            some ⟨"AssignmentExpression", nm, l⟩
          else none
      | none => none
  | _ => none

mutual

/-- `ast_find_dangerous_calls`: depth-first pre-order traversal that
appends the current node's finding (if any) and then unconditionally
recurses into every node-valued or list-valued child field in attribute
order. -/
def ast_find_dangerous_calls : Node → List Finding
  | .ident _ _ => []
  | .lit _ => []
  | .member _ _ o p => ast_find_dangerous_calls o ++ ast_find_dangerous_calls p
  | .call l c args =>
      (nodeFinding (.call l c args)).toList ++
        (ast_find_dangerous_calls c ++ findingsList args)
  | .assign l lhs r =>
      (nodeFinding (.assign l lhs r)).toList ++
        (ast_find_dangerous_calls lhs ++ ast_find_dangerous_calls r)
  | .other _ _ ks => findingsList ks

/-- Findings of a list of children, in list order. -/
def findingsList : List Node → List Finding
  | [] => []
  | n :: ns => ast_find_dangerous_calls n ++ findingsList ns

end

mutual

/-- Pre-order list of the nodes `visit_node` is invoked on: the node
itself, then (recursively) every child, in child order. -/
def visits : Node → List Node
  | .ident l s => [.ident l s]
  | .lit l => [.lit l]
  | .member l c o p => .member l c o p :: (visits o ++ visits p)
  | .call l c args => .call l c args :: (visits c ++ visitsList args)
  | .assign l lhs r => .assign l lhs r :: (visits lhs ++ visits r)
  | .other l k ks => .other l k ks :: visitsList ks

/-- Pre-order visit list of a list of children. -/
def visitsList : List Node → List Node
  | [] => []
  | n :: ns => visits n ++ visitsList ns

end

mutual

/-- Total number of nodes of a tree. -/
def nodeCount : Node → Nat
  | .ident _ _ => 1
  | .lit _ => 1
  | .member _ _ o p => 1 + (nodeCount o + nodeCount p)
  | .call _ c args => 1 + (nodeCount c + nodeCountList args)
  | .assign _ lhs r => 1 + (nodeCount lhs + nodeCount r)
  | .other _ _ ks => 1 + nodeCountList ks

/-- Total number of nodes of a list of trees. -/
def nodeCountList : List Node → Nat
  | [] => 0
  | n :: ns => nodeCount n + nodeCountList ns

end

/-- Events observable from one run of `run_deep_mode`'s per-file loop:
a warning for a file whose parse failed, a saved findings report for a
file with a non-empty findings list, and the final completion message. -/
inductive DeepEvent : Type where
  | warned (file : String)
  | reported (file : String) (findings : List Finding)
  | completed
deriving DecidableEq

/-- One iteration of `run_deep_mode`'s loop on a file, given the outcome
of `esprima.parseScript` (`none` models a parse exception).  A parse
failure warns and `continue`s; a parsed tree is analysed and a report is
written only when the findings list is non-empty. -/
def processFile : String × Option Node → List DeepEvent
  | (fp, none) => [.warned fp]
  | (fp, some tree) =>
      let findings := ast_find_dangerous_calls tree
      if findings.isEmpty then [] else [.reported fp findings]

/-- The events of `run_deep_mode`'s per-file loop over a file list. -/
def deepEvents (files : List (String × Option Node)) : List DeepEvent :=
  (files.map processFile).flatten

/-- `run_deep_mode` over its collected file list: the per-file loop
followed by the final "DEEP MODE completed." message. -/
def run_deep_mode (files : List (String × Option Node)) : List DeepEvent :=
  deepEvents files ++ [.completed]

/-- The `DOM_SOURCES` catalog.  Every regular expression in the Python
list is a literal with its dots escaped (e.g. `location\.hash`), so each
is modelled by the literal string it matches. -/
def DOM_SOURCES : List String :=
  ["location.hash", "location.search", "document.URL",
   "document.documentURI", "document.location", "window.name",
   "localStorage.getItem", "sessionStorage.getItem"]

/-- The `DOM_SINKS` catalog; like `DOM_SOURCES`, all entries are escaped
literals, modelled by the literal strings they match. -/
def DOM_SINKS : List String :=
  ["innerHTML", "outerHTML", "document.write", "insertAdjacentHTML",
   "eval", "Function"]

/-- `re.findall(p, js)` for an escaped-literal pattern `p` finds a match
exactly when the literal occurs as a substring of `js`, anywhere and
unanchored.  `strContains js p` is that occurrence test. -/
def strContains (js pat : String) : Bool := decide (pat.data <:+: js.data)

/-- `find_sources`: the source patterns with at least one match in the
text, in catalog order (the Python pairs each with its occurrence list;
only which patterns matched is relevant downstream). -/
def find_sources (js : String) : List String :=
  DOM_SOURCES.filter (fun p => strContains js p)

/-- `find_sinks`: the sink patterns with at least one match in the text,
in catalog order. -/
def find_sinks (js : String) : List String :=
  DOM_SINKS.filter (fun p => strContains js p)

/-- The correlation verdict `run_dom_mode` derives per file: the matched
source patterns, the matched sink patterns, and whether the
"!!! POSSIBLE DOM XSS !!!" line is written, which the code does exactly
when both lists are non-empty (`if sources and sinks`). -/
structure DomVerdict where
  sourcesFound : List String
  sinksFound : List String
  possibleXSS : Bool
deriving DecidableEq

/-- Per-file correlation logic of `run_dom_mode` (lines 426-441 of the
source): run `find_sources` and `find_sinks` on the raw text and flag
possible DOM XSS when both matched. -/
def correlateDomTaint (js : String) : DomVerdict :=
  { sourcesFound := find_sources js
    sinksFound := find_sinks js
    possibleXSS := !(find_sources js).isEmpty && !(find_sinks js).isEmpty }

/-- Parse tree of the one-line script `eval("x")`:
Program, ExpressionStatement, CallExpression with Identifier callee
`eval` and one Literal argument. -/
def evalProgram : Node :=
  .other 1 "Program"
    [.other 1 "ExpressionStatement"
      [.call 1 (.ident 1 "eval") [.lit 1]]]

/-- Parse tree of the one-line script `document.write("x")`: the callee
is a non-computed member expression `document.write`. -/
def docWriteProgram : Node :=
  .other 1 "Program"
    [.other 1 "ExpressionStatement"
      [.call 1 (.member 1 false (.ident 1 "document") (.ident 1 "write")) [.lit 1]]]

/-- Parse tree of the one-line script `window["eval"]("x")`: the callee
is a computed member expression whose property is a string Literal. -/
def windowEvalProgram : Node :=
  .other 1 "Program"
    [.other 1 "ExpressionStatement"
      [.call 1 (.member 1 true (.ident 1 "window") (.lit 1)) [.lit 1]]]

/-- Parse tree of the one-line script `el.innerHTML = "<img>"`. -/
def innerHTMLProgram : Node :=
  .other 1 "Program"
    [.other 1 "ExpressionStatement"
      [.assign 1 (.member 1 false (.ident 1 "el") (.ident 1 "innerHTML")) (.lit 1)]]

/-- Parse tree of the one-line script `el.textContent = "<img>"`. -/
def textContentProgram : Node :=
  .other 1 "Program"
    [.other 1 "ExpressionStatement"
      [.assign 1 (.member 1 false (.ident 1 "el") (.ident 1 "textContent")) (.lit 1)]]

/-- Parse tree of the two-line script `eval("x")` then
`el.innerHTML = "<img>"`: node lines are non-decreasing in pre-order. -/
def twoLineProgram : Node :=
  .other 1 "Program"
    [.other 1 "ExpressionStatement"
      [.call 1 (.ident 1 "eval") [.lit 1]],
     .other 2 "ExpressionStatement"
      [.assign 2 (.member 2 false (.ident 2 "el") (.ident 2 "innerHTML")) (.lit 2)]]

mutual

/-- Each recursive `visit_node` call fires exactly once per node: the
pre-order visit list has exactly one entry per node of the tree. -/
theorem visits_length_eq : ∀ n : Node, (visits n).length = nodeCount n
  | .ident _ _ => rfl
  | .lit _ => rfl
  | .member _ _ o p => by
      have ho := visits_length_eq o
      have hp := visits_length_eq p
      simp [visits, nodeCount]
      omega
  | .call _ c args => by
      have hc := visits_length_eq c
      have ha := visitsList_length_eq args
      simp [visits, nodeCount]
      omega
  | .assign _ lhs r => by
      have hl := visits_length_eq lhs
      have hr := visits_length_eq r
      simp [visits, nodeCount]
      omega
  | .other _ _ ks => by
      have hk := visitsList_length_eq ks
      simp [visits, nodeCount]
      omega

/-- List version of `visits_length_eq`. -/
theorem visitsList_length_eq : ∀ ns : List Node, (visitsList ns).length = nodeCountList ns
  | [] => rfl
  | n :: ns => by
      have h1 := visits_length_eq n
      have h2 := visitsList_length_eq ns
      simp [visitsList, nodeCountList]
      omega

end

mutual

/-- The findings list is exactly the per-node findings collected along
the pre-order visit list: detection happens at each visited node and
never alters the traversal. -/
theorem findings_eq_filterMap :
    ∀ n : Node, ast_find_dangerous_calls n = (visits n).filterMap nodeFinding
  | .ident _ _ => rfl
  | .lit _ => rfl
  | .member l c o p => by
      have ho := findings_eq_filterMap o
      have hp := findings_eq_filterMap p
      simp [ast_find_dangerous_calls, visits, List.filterMap_cons,
        List.filterMap_append, nodeFinding, ho, hp]
  | .call l c args => by
      have hc := findings_eq_filterMap c
      have ha := findingsList_eq_filterMap args
      cases h : nodeFinding (.call l c args) with
      | none =>
          simp [ast_find_dangerous_calls, visits, List.filterMap_cons, h,
            List.filterMap_append, hc, ha]
      | some f =>
          simp [ast_find_dangerous_calls, visits, List.filterMap_cons, h,
            List.filterMap_append, hc, ha]
  | .assign l lhs r => by
      have h1 := findings_eq_filterMap lhs
      have h2 := findings_eq_filterMap r
      cases h : nodeFinding (.assign l lhs r) with
      | none =>
          simp [ast_find_dangerous_calls, visits, List.filterMap_cons, h,
            List.filterMap_append, h1, h2]
      | some f =>
          simp [ast_find_dangerous_calls, visits, List.filterMap_cons, h,
            List.filterMap_append, h1, h2]
  | .other l k ks => by
      have hk := findingsList_eq_filterMap ks
      simp [ast_find_dangerous_calls, visits, List.filterMap_cons,
        nodeFinding, hk]

/-- List version of `findings_eq_filterMap`. -/
theorem findingsList_eq_filterMap :
    ∀ ns : List Node, findingsList ns = (visitsList ns).filterMap nodeFinding
  | [] => rfl
  | n :: ns => by
      have h1 := findings_eq_filterMap n
      have h2 := findingsList_eq_filterMap ns
      simp [findingsList, visitsList, List.filterMap_append, h1, h2]

end

/-- A finding emitted at a node carries that node's start line. -/
theorem nodeFinding_line (n : Node) (f : Finding) (h : nodeFinding n = some f) :
    f.line = n.line := by
  cases n with
  | ident l s => simp [nodeFinding] at h
  | lit l => simp [nodeFinding] at h
  | member l c o p => simp [nodeFinding] at h
  | other l k ks => simp [nodeFinding] at h
  | call l c args =>
      simp only [nodeFinding] at h
      split at h
      · split at h
        · cases h; rfl
        · simp at h
      · simp at h
  | assign l lhs r =>
      simp only [nodeFinding] at h
      split at h
      · split at h
        · cases h; rfl
        · simp at h
      · simp at h

/-- The lines of the findings collected along a visit list form a
sublist of the lines of the visited nodes. -/
theorem findings_lines_sublist (l : List Node) :
    List.Sublist ((l.filterMap nodeFinding).map Finding.line) (l.map Node.line) := by
  induction l with
  | nil => simp
  | cons a t ih =>
      cases h : nodeFinding a with
      | none =>
          simp only [List.filterMap_cons, h, List.map_cons]
          exact List.Sublist.cons _ ih
      | some f =>
          simp only [List.filterMap_cons, h, List.map_cons]
          rw [nodeFinding_line a f h]
          exact List.Sublist.cons₂ _ ih

/-- Claim C1: the spec says a call whose callee is the member expression
`document.write` is matched by reconstructing `object.property` and
yields one CallSink finding.  The code instead reads
`getattr(node.callee, "name", None)`, which is `None` for every member
expression, so the dotted catalog entry `document.write` is unreachable
and `document.write("x")` yields no finding at all. -/
theorem c1_document_write_never_flagged :
    "document.write" ∈ DANGEROUS_SINKS
    ∧ (∀ (l : Nat) (cb : Bool) (o p : Node), calleeName (.member l cb o p) = none)
    ∧ ast_find_dangerous_calls docWriteProgram = [] :=
  ⟨by decide, fun _ _ _ _ => rfl, rfl⟩

/-- Claim C2: the DOM correlator asserts possibleXSS exactly when some
source pattern and some sink pattern both occur in the text; text with
only `location.hash` gives false, text with `location.hash` and
`innerHTML` gives true. -/
theorem c2_possibleXSS_iff_source_and_sink :
    (∀ js : String,
      (correlateDomTaint js).possibleXSS = true ↔
        ((∃ p ∈ DOM_SOURCES, strContains js p = true)
          ∧ (∃ p ∈ DOM_SINKS, strContains js p = true)))
    ∧ (correlateDomTaint "var h = location.hash;").possibleXSS = false
    ∧ (correlateDomTaint "el.innerHTML = location.hash;").possibleXSS = true := by
  refine ⟨fun js => ?_, by decide, by decide⟩
  simp [correlateDomTaint, find_sources, find_sinks, List.isEmpty_iff,
    List.filter_eq_nil_iff]

/-- Claim C3: the traversal visits every node of the (acyclic, finite)
tree exactly once — the visit list has one entry per node — and at a
call node it unconditionally recurses into the callee and every
argument, independent of whether the node matched a sink. -/
theorem c3_traversal_visits_each_node_once :
    (∀ n : Node, (visits n).length = nodeCount n)
    ∧ (∀ (l : Nat) (c : Node) (args : List Node),
        visits (.call l c args) = .call l c args :: (visits c ++ visitsList args)) :=
  ⟨visits_length_eq, fun _ _ _ => rfl⟩

/-- Claim C4: the findings list is the per-node findings collected along
the depth-first pre-order visit list, so whenever the visit list's lines
are non-decreasing (as for a top-to-bottom parse), the findings' lines
are non-decreasing as well. -/
theorem c4_findings_in_traversal_order :
    (∀ t : Node, ast_find_dangerous_calls t = (visits t).filterMap nodeFinding)
    ∧ (∀ t : Node,
        List.Sorted (· ≤ ·) ((visits t).map Node.line) →
        List.Sorted (· ≤ ·) ((ast_find_dangerous_calls t).map Finding.line)) := by
  refine ⟨findings_eq_filterMap, fun t h => ?_⟩
  rw [findings_eq_filterMap t]
  exact List.Pairwise.sublist (findings_lines_sublist (visits t)) h

/-- Witness for C4 on the two-line program `eval("x")`,
`el.innerHTML = "<img>"`. -/
theorem c4_findings_in_traversal_order_witness :
    List.Sorted (· ≤ ·) ((visits twoLineProgram).map Node.line)
    ∧ List.Sorted (· ≤ ·) ((ast_find_dangerous_calls twoLineProgram).map Finding.line) :=
  ⟨by decide, c4_findings_in_traversal_order.2 twoLineProgram (by decide)⟩

/-- Claim C5: an assignment whose left side is a non-computed member
access with property `innerHTML` or `outerHTML` yields one
AssignmentExpression finding with that property name and the
assignment's line, for any object expression; a property outside the
catalog yields none, and `el.textContent = "<img>"` produces no finding
while `el.innerHTML = "<img>"` produces exactly one. -/
theorem c5_assignment_sink_matching :
    (∀ (al ml pl : Nat) (obj rhs : Node) (nm : String),
      nm = "innerHTML" ∨ nm = "outerHTML" →
      nodeFinding (.assign al (.member ml false obj (.ident pl nm)) rhs) =
        some ⟨"AssignmentExpression", nm, al⟩)
    ∧ (∀ (al ml pl : Nat) (cb : Bool) (obj rhs : Node) (nm : String),
        nm ∉ ["innerHTML", "outerHTML"] →
        nodeFinding (.assign al (.member ml cb obj (.ident pl nm)) rhs) = none)
    ∧ ast_find_dangerous_calls innerHTMLProgram =
        [⟨"AssignmentExpression", "innerHTML", 1⟩]
    ∧ ast_find_dangerous_calls textContentProgram = [] := by
  refine ⟨fun al ml pl obj rhs nm h => ?_, fun al ml pl cb obj rhs nm h => ?_, rfl, rfl⟩
  · rcases h with rfl | rfl <;> rfl
  · simp [nodeFinding, leftPropName, h]

/-- Witness for C5: a concrete `div.outerHTML = ...` assignment at line 5
is flagged, and a concrete `el.textContent = ...` assignment is not. -/
theorem c5_assignment_sink_matching_witness :
    nodeFinding (.assign 5 (.member 5 false (.ident 5 "div") (.ident 5 "outerHTML")) (.lit 5)) =
      some ⟨"AssignmentExpression", "outerHTML", 5⟩
    ∧ nodeFinding (.assign 7 (.member 7 false (.ident 7 "el") (.ident 7 "textContent")) (.lit 7)) =
      none :=
  ⟨c5_assignment_sink_matching.1 5 5 5 (.ident 5 "div") (.lit 5) "outerHTML" (Or.inr rfl),
   c5_assignment_sink_matching.2.1 7 7 7 false (.ident 7 "el") (.lit 7) "textContent" (by decide)⟩

/-- Claim C6: `eval("x")` at top level yields exactly one finding, a
CallExpression sink named "eval" at line 1. -/
theorem c6_eval_yields_one_finding :
    ast_find_dangerous_calls evalProgram = [⟨"CallExpression", "eval", 1⟩] := rfl

/-- Claim C7: a call whose callee carries no `.name` attribute — in
particular any member expression, hence the computed access
`window["eval"]` — produces no finding at the call node, and the whole
`window["eval"]("x")` program yields no findings. -/
theorem c7_unresolvable_callee_not_flagged :
    (∀ (l : Nat) (c : Node) (args : List Node),
      calleeName c = none → nodeFinding (.call l c args) = none)
    ∧ (∀ (ml : Nat) (cb : Bool) (o p : Node), calleeName (.member ml cb o p) = none)
    ∧ ast_find_dangerous_calls windowEvalProgram = [] := by
  refine ⟨fun l c args h => ?_, fun _ _ _ _ => rfl, rfl⟩
  simp [nodeFinding, h]

/-- Witness for C7 on the computed-member callee `window["eval"]`. -/
theorem c7_unresolvable_callee_not_flagged_witness :
    nodeFinding (.call 1 (.member 1 true (.ident 1 "window") (.lit 1)) [.lit 1]) = none :=
  c7_unresolvable_callee_not_flagged.1 1 (.member 1 true (.ident 1 "window") (.lit 1))
    [.lit 1] rfl

/-- Claim C8: a file whose parse fails contributes exactly one warning
event, the remaining files are still processed, and the batch still
reaches completion; a parsed file with an empty findings list is never
reported. -/
theorem c8_parse_failure_skips_file :
    (∀ (pre : List (String × Option Node)) (f : String) (post : List (String × Option Node)),
      run_deep_mode (pre ++ (f, (none : Option Node)) :: post) =
        deepEvents pre ++ DeepEvent.warned f :: (deepEvents post ++ [DeepEvent.completed]))
    ∧ (∀ (fp : String) (t : Node),
        (ast_find_dangerous_calls t).isEmpty = true → processFile (fp, some t) = []) := by
  refine ⟨fun pre f post => ?_, fun fp t h => ?_⟩
  · simp [run_deep_mode, deepEvents, processFile]
  · simp [processFile, h]

/-- Witness for C8: a batch of one unparseable file and one benign file
yields just the warning and the completion message. -/
theorem c8_parse_failure_skips_file_witness :
    run_deep_mode [("bad.js", (none : Option Node)), ("ok.js", some (.other 1 "Program" []))] =
      [DeepEvent.warned "bad.js", DeepEvent.completed]
    ∧ processFile ("ok.js", some (.other 1 "Program" [])) = [] :=
  ⟨(c8_parse_failure_skips_file.1 [] "bad.js" [("ok.js", some (.other 1 "Program" []))]).trans rfl,
   c8_parse_failure_skips_file.2 "ok.js" (.other 1 "Program" []) rfl⟩

/-- Claim C9: the DOM correlator's verdict depends only on which catalog
literals occur in the text — it never parses the input — and on the
truncated (unparseable) fragment `el.innerHTML = location.ha` it still
returns a verdict. -/
theorem c9_correlator_total_and_parse_free :
    (∀ s t : String,
      (∀ p ∈ DOM_SOURCES, strContains s p = strContains t p) →
      (∀ p ∈ DOM_SINKS, strContains s p = strContains t p) →
      correlateDomTaint s = correlateDomTaint t)
    ∧ correlateDomTaint "el.innerHTML = location.ha" =
        { sourcesFound := [], sinksFound := ["innerHTML"], possibleXSS := false } := by
  refine ⟨fun s t hs hk => ?_, by decide⟩
  have h1 : find_sources s = find_sources t :=
    List.filter_congr (fun p hp => hs p hp)
  have h2 : find_sinks s = find_sinks t :=
    List.filter_congr (fun p hp => hk p hp)
  simp [correlateDomTaint, h1, h2]

/-- Witness for C9: two texts with the same (empty) pattern occurrences
get the same verdict. -/
theorem c9_correlator_total_and_parse_free_witness :
    correlateDomTaint "abc" = correlateDomTaint "xyz" :=
  c9_correlator_total_and_parse_free.1 "abc" "xyz" (by decide) (by decide)

/-- Claim C10: the catalog patterns match unanchored substrings, so the
identifier `myFunction` triggers the sink pattern `Function` and
`evaluate` triggers `eval`; together with `location.hash` each makes
possibleXSS true despite there being no standalone sink usage. -/
theorem c10_sink_patterns_match_substrings :
    find_sinks "myFunction(location.hash)" = ["Function"]
    ∧ (correlateDomTaint "myFunction(location.hash)").possibleXSS = true
    ∧ find_sinks "evaluate(location.hash)" = ["eval"]
    ∧ (correlateDomTaint "evaluate(location.hash)").possibleXSS = true := by
  refine ⟨by decide, by decide, by decide, by decide⟩

end MegaJsScanner
